import Mathlib

/-!
Verification of the SEL temperature line decoder (`sel_temperature_reader.py`)
and the instrument poll loop (`ess_instrument_object.py`) of the `ts_ess`
repository.

The decoder is embedded shallowly:

* Python strings are `List Char`; slicing `s[a:b]` is `(s.drop a).take (b - a)`,
  which clamps exactly like Python slices do for the non-negative indices used
  by the source.
* Python `float` values are `ℚ` (the wire format is fixed-point decimal ASCII,
  so all parsed values are rational); Python's heterogeneous lists hold `PyVal`,
  a rational or a string — this distinction is load-bearing because the
  source's `DEFAULT_VAL` is the *string* `"9999.9990"` despite its `float`
  annotation.
* `float(s)` is modelled by `pyFloat?` on plain decimal literals
  (optional sign, digits, optional fraction part), the grammar generated by
  the instrument's `snnn.nnnn` wire format; a failed parse is `none`
  (Python: `ValueError`).
* Fallible statements (Python `IndexError` from list indexing or item
  assignment) make the embedded functions return `Option`: a `none` result
  models an uncaught exception escaping `read()`.
* `SelTemperature.read` mutates `self.temperature` and produces
  `self.output = [timestamp, err, *temperature]`; the embedding threads the
  state explicitly and returns the output as a `Sample`.  The scratch buffer
  `self._tmp_temperature` is reset to `DEFAULT_VAL` at the top of every call
  and only entry `i` is read back during iteration `i` of the channel loop, so
  it is elided: each loop iteration stores either the freshly parsed value or
  `DEFAULT_VAL` into `temperature[i]`, exactly as the source does.  Both
  buffers are created in `__init__` with exactly `channels` entries.
* `time.time()` is a parameter `t` of `read`, and the transport call
  `self.comport.readline()` is a parameter `(transportErr, serLine)`.
-/

/-- A value held in one of the decoder's Python lists: either a parsed float
(modelled as a rational, since all wire values are fixed-point decimals) or a
string.  The source's `DEFAULT_VAL` is a string, so both cases occur. -/
inductive PyVal where
  | num : ℚ → PyVal
  | str : List Char → PyVal
deriving DecidableEq

/-- Source constant `BAUDRATE: int = 19200`. -/
def BAUDRATE : Nat := 19200

/-- Source constant `CH_READ_TIME: float = 0.167`, the per-channel acquisition time in
seconds, read exactly as the decimal literal. -/
def CH_READ_TIME : ℚ := 167 / 1000

/-- Source constant `PREAMBLE_SIZE: int = 4`. -/
def PREAMBLE_SIZE : Nat := 4

/-- Source constant `VALUE_SIZE: int = 9`. -/
def VALUE_SIZE : Nat := 9

/-- Source constant `DELIMITER: str = ","`. -/
def DELIMITER : List Char := [',']

/-- Source constant `TERMINATOR: str = "\r\n"`. -/
def TERMINATOR : List Char := ['\r', '\n']

/-- Source constant `DEFAULT_VAL: float = "9999.9990"` — note that the source assigns a
*string literal* despite the `float` annotation, so the embedded value is a
`PyVal.str`. -/
def DEFAULT_VAL : PyVal := PyVal.str ("9999.9990".toList)

/-- Source constant `SENSOR_UNCONNECTED_VAL: str = "-201.0000"`. -/
def SENSOR_UNCONNECTED_VAL : List Char := "-201.0000".toList

/-- The transport status string `"OK"` returned by `readline` on success and
compared against by `read`. -/
def okStatus : List Char := "OK".toList

/-- Python `f"{n:02}"`: the decimal rendering of `n`, zero-padded on the left
to at least two digits. -/
def py02d (n : Nat) : List Char :=
  if n < 100 then [Nat.digitChar (n / 10), Nat.digitChar (n % 10)]
  else Nat.toDigits 10 n

/-- Preamble `self._preamble_str[i] = f"C{i:02}="` (current numbering convention). -/
def preambleStr (i : Nat) : List Char := 'C' :: py02d i ++ ['=']

/-- Preamble `self._old_preamble_str[i] = f"C{i+1:02}="` (legacy numbering convention,
off by one). -/
def oldPreambleStr (i : Nat) : List Char := preambleStr (i + 1)

/-- Expected line size `self._read_line_size = channels * (PREAMBLE_SIZE + VALUE_SIZE +
len(DELIMITER)) - len(DELIMITER) + len(TERMINATOR)`. -/
def readLineSize (channels : Nat) : Nat :=
  channels * (PREAMBLE_SIZE + VALUE_SIZE + DELIMITER.length)
    - DELIMITER.length + TERMINATOR.length

/-- Numeric value of a digit string, most significant digit first. -/
def digitsVal (l : List Char) : Nat :=
  l.foldl (fun a c => 10 * a + (c.toNat - 48)) 0

/-- Python `float(s)` on an unsigned plain decimal literal: digits with an
optional single decimal point, at least one digit in total; `none` models the
raised `ValueError`; the value of `ip.fp` is the rational
`(ip * 10 ^ k + fp) / 10 ^ k` built with `mkRat`.  (Exponents, infinities,
whitespace and other exotic forms accepted by CPython cannot occur in the
instrument's fixed-point wire format and are out of scope of this model.) -/
def pyFloatCore? (s : List Char) : Option ℚ :=
  match s.dropWhile Char.isDigit with
  | [] =>
    if s.takeWhile Char.isDigit = [] then none
    else some (mkRat (digitsVal (s.takeWhile Char.isDigit)) 1)
  | '.' :: fp =>
    if fp.all Char.isDigit ∧ (s.takeWhile Char.isDigit ≠ [] ∨ fp ≠ []) then
      some (mkRat (digitsVal (s.takeWhile Char.isDigit) * 10 ^ fp.length
        + digitsVal fp) (10 ^ fp.length))
    else none
  | _ => none

/-- Python `float(s)` on a plain decimal literal with optional sign. -/
def pyFloat? (s : List Char) : Option ℚ :=
  match s with
  | '-' :: r => (pyFloatCore? r).map (fun q => -q)
  | '+' :: r => pyFloatCore? r
  | r => pyFloatCore? r

/-- First split of a list at a separator character: `some (before, after)` if
the separator occurs, `none` otherwise. -/
def splitOnceAux (sep : Char) : List Char → Option (List Char × List Char)
  | [] => none
  | c :: cs =>
    if c = sep then some ([], cs)
    else (splitOnceAux sep cs).map (fun p => (c :: p.1, p.2))

/-- Python `s.split(sep, maxsplit)` for a single-character separator and a
non-negative `maxsplit` (the source calls it with `channels - 1` and
`channels ≥ 1`). -/
def pySplit (sep : Char) : Nat → List Char → List (List Char)
  | 0, s => [s]
  | n + 1, s =>
    match splitOnceAux sep s with
    | none => [s]
    | some (a, b) => a :: pySplit sep n b

/-- Method `SelTemperature._test_val`: the field is accepted when its first
`PREAMBLE_SIZE` characters equal the expected preamble and the slice
`sensor_str[PREAMBLE_SIZE : PREAMBLE_SIZE + VALUE_SIZE + len(DELIMITER) - 1]`
parses as a float.  The Python function returns `True`, `False`, or
(implicitly, on a preamble mismatch) `None`; only its truthiness is ever
used, so it is modelled as a `Bool`. -/
def test_val (preamble sensor_str : List Char) : Bool :=
  if sensor_str.take PREAMBLE_SIZE = preamble then
    (pyFloat? ((sensor_str.drop PREAMBLE_SIZE).take
      (PREAMBLE_SIZE + VALUE_SIZE + DELIMITER.length - 1 - PREAMBLE_SIZE))).isSome
  else false

/-- Error text `f"Temperature data error. Could not convert value(s) to float: {ser_line}"`. -/
def convErr (serLine : List Char) : List Char :=
  "Temperature data error. Could not convert value(s) to float: ".toList ++ serLine

/-- Error text `f"Malformed response. Channel preamble or channel data incorrect: {ser_line}"`. -/
def malformedChanErr (serLine : List Char) : List Char :=
  "Malformed response. Channel preamble or channel data incorrect: ".toList ++ serLine

/-- Error text `f"Malformed response. Terminator or line size incorrect: {ser_line}"`. -/
def termErr (serLine : List Char) : List Char :=
  "Malformed response. Terminator or line size incorrect: ".toList ++ serLine

/-- One iteration of the channel loop in `SelTemperature.read` (body of
`for i in range(self._channels)`), given the two acceptable preambles for the
channel, the field `temps[i]`, the raw line (used in error messages) and the
current error string.  Returns the updated error string and the value stored
into `temperature[i]` (the freshly parsed float, or the reset scratch value
`DEFAULT_VAL` on any per-channel failure). -/
def processChannel (pre old field serLine err : List Char) : List Char × PyVal :=
  if test_val pre field || test_val old field then
    if field.drop PREAMBLE_SIZE ≠ SENSOR_UNCONNECTED_VAL then
      match pyFloat? (field.drop PREAMBLE_SIZE) with
      | some q => (err, PyVal.num q)
      | none => (convErr serLine, DEFAULT_VAL)
    else (err, DEFAULT_VAL)
  else (malformedChanErr serLine, DEFAULT_VAL)

/-- The channel loop of `SelTemperature.read` over the index list
`range(channels)`: accesses `temps[i]` (raising `IndexError`, i.e. `none`,
when out of range) and assigns `temperature[i]` (also an `IndexError` when
out of range, which cannot happen for the decoder's fixed-size buffer). -/
def loopChannels (temps : List (List Char)) (serLine : List Char) :
    List Nat → List Char → List PyVal → Option (List Char × List PyVal)
  | [], err, temperature => some (err, temperature)
  | i :: rest, err, temperature =>
    match temps.get? i with
    | none => none
    | some field =>
      let r := processChannel (preambleStr i) (oldPreambleStr i) field serLine err
      if i < temperature.length then
        loopChannels temps serLine rest r.1 (temperature.set i r.2)
      else none

/-- The output-assembly loop `for i in range(channels):
output.append(temperature[i])`; `none` models the `IndexError` raised when
the buffer is shorter than `channels` (unreachable for real decoder states). -/
def collectOutput (temperature : List PyVal) : List Nat → Option (List PyVal)
  | [] => some []
  | i :: rest =>
    match temperature.get? i with
    | none => none
    | some v => (collectOutput temperature rest).map (fun l => v :: l)

/-- Decoder state: the channel count fixed at construction and the persisted
per-channel last-good buffer `self.temperature` (which `__init__` creates
with exactly `channels` entries, all `DEFAULT_VAL`). -/
structure SelState where
  channels : Nat
  temperature : List PyVal
deriving DecidableEq

/-- The state built by `SelTemperature.__init__`: `temperature` holds
`channels` copies of `DEFAULT_VAL`. -/
def initState (channels : Nat) : SelState :=
  ⟨channels, List.replicate channels DEFAULT_VAL⟩

/-- The decoder state invariant: the persisted buffer has exactly one entry
per channel, as established by `__init__` and preserved by `read`. -/
def WF (st : SelState) : Prop := st.temperature.length = st.channels

/-- Output record `self.output` as delivered to the sink: `[time.time(), err,
*temperature]`. -/
structure Sample where
  timestamp : ℚ
  status : List Char
  values : List PyVal
deriving DecidableEq

/-- The tail of `SelTemperature.read`: given the state and error string after
the decode phase, rebuild `self.output = [time.time(), err, *temperature]`
(`none` propagates an exception from the decode phase). -/
def assembleOutput (t : ℚ) (r : Option (SelState × List Char)) :
    Option (SelState × Sample) :=
  match r with
  | none => none
  | some (st2, e) =>
    match collectOutput st2.temperature (List.range st2.channels) with
    | none => none
    | some vals => some (st2, ⟨t, e, vals⟩)

/-- Method `SelTemperature.read`, given the decoder state, the wall-clock time `t`
and the transport result `(err, ser_line)` of `self.comport.readline()`.
Returns the new state and the assembled output sample, or `none` when the
Python code raises an uncaught exception.  The decode phase follows the
source line by line: if the transport status is `"OK"` and the line ends
with the terminator and has the expected size, the terminator is stripped,
the line is split on `","` with `maxsplit = channels - 1`, and the channel
loop runs; otherwise the error string is set (terminator/size message, or
the transport's own error) and the persisted buffer is left untouched. -/
def SelTemperature.read (st : SelState) (t : ℚ) (transportErr serLine : List Char) :
    Option (SelState × Sample) :=
  assembleOutput t
    (if transportErr = okStatus then
      if serLine.drop (serLine.length - TERMINATOR.length) = TERMINATOR
          ∧ serLine.length = readLineSize st.channels then
        match loopChannels
            (pySplit ',' (st.channels - 1)
              (serLine.take (serLine.length - TERMINATOR.length)))
            serLine (List.range st.channels) transportErr st.temperature with
        | none => none
        | some (e, temps2) => some (⟨st.channels, temps2⟩, e)
      else some (st, termErr serLine)
    else some (st, transportErr))

/-- The comport configuration written by `SelTemperature.start`. -/
structure ComportConfig where
  line_size : Nat
  terminator : List Char
  baudrate : Nat
  read_timeout : ℚ
deriving DecidableEq

/-- Method `SelTemperature.start`: assigns `comport.line_size = self._read_line_size`,
`comport.terminator = TERMINATOR`, `comport.baudrate = BAUDRATE` and
`comport.read_timeout = (self._channels + 1) * CH_READ_TIME`. -/
def SelTemperature.start (st : SelState) : ComportConfig :=
  ⟨readLineSize st.channels, TERMINATOR, BAUDRATE,
    ((st.channels : ℚ) + 1) * CH_READ_TIME⟩

/-- The duplicate-binding check of `SelTemperature.__init__`: the method first
assigns `self._instances = dict()` and `self._devices = dict()` as *instance*
attributes and only then tests `name not in self._instances` and
`uart_device not in self._devices`, so the membership tests always consult
freshly created empty dictionaries.  `history` records the
(name, device identity) pairs of every previously completed construction; the
source gives it no way to reach the check.  The result is `true` iff the
construction raises `IndexError`. -/
def selTemperatureInitRaises (_history : List (List Char × Nat))
    (name : List Char) (uartDevice : Nat) : Bool :=
  let instances : List (List Char) := []
  let devices : List Nat := []
  decide (name ∈ instances) || decide (uartDevice ∈ devices)

/-- Whether a `PyVal` is a Python float (as opposed to a string such as the
source's `DEFAULT_VAL` sentinel). -/
def isFloatVal : PyVal → Bool
  | PyVal.num _ => true
  | PyVal.str _ => false

/-! ### Specification-side frame builders

These definitions construct wire frames from given 9-character value strings,
following the spec's wire-format description (§6): fields are a 4-character
preamble followed by the value, joined by `,` and terminated by `\r\n`. -/

/-- Join fields with the single-character delimiter `,`. -/
def joinFields : List (List Char) → List Char
  | [] => []
  | [f] => f
  | f :: g :: rest => f ++ ',' :: joinFields (g :: rest)

/-- Fields for value strings `vs`, current preamble convention, starting at
channel `k`. -/
def mkFields (k : Nat) : List (List Char) → List (List Char)
  | [] => []
  | v :: rest => (preambleStr k ++ v) :: mkFields (k + 1) rest

/-- Fields for value strings `vs`, legacy (off-by-one) preamble convention. -/
def mkFieldsOld (k : Nat) : List (List Char) → List (List Char)
  | [] => []
  | v :: rest => (oldPreambleStr k ++ v) :: mkFieldsOld (k + 1) rest

/-- A complete raw line in the current preamble convention. -/
def mkFrameCur (vs : List (List Char)) : List Char :=
  joinFields (mkFields 0 vs) ++ TERMINATOR

/-- A complete raw line in the legacy preamble convention. -/
def mkFrameOld (vs : List (List Char)) : List Char :=
  joinFields (mkFieldsOld 0 vs) ++ TERMINATOR

/-- The value `read` stores for a channel whose 13-character field carries a
correct preamble and the 9-character value string `v`: the parsed float when
`v` parses and is not the unconnected sentinel, `DEFAULT_VAL` otherwise. -/
def fieldResult (v : List Char) : PyVal :=
  if (pyFloat? v).isSome ∧ v ≠ SENSOR_UNCONNECTED_VAL then
    PyVal.num ((pyFloat? v).getD 0)
  else DEFAULT_VAL

/-- Error-string update contributed by channel `i` with field `temps[i]`:
first projection of `processChannel`. -/
def chanErrUpd (i : Nat) (field serLine err : List Char) : List Char :=
  (processChannel (preambleStr i) (oldPreambleStr i) field serLine err).1

/-- Value stored for channel `i` with field `temps[i]`: second projection of
`processChannel` (independent of the incoming error string). -/
def chanVal (i : Nat) (field serLine : List Char) : PyVal :=
  (processChannel (preambleStr i) (oldPreambleStr i) field serLine []).2

/-! ### Character-level facts about the float grammar -/

/-- Every character of `takeWhile Char.isDigit` is a digit. -/
lemma mem_takeWhile_digit {c : Char} {s : List Char}
    (h : c ∈ s.takeWhile Char.isDigit) : c.isDigit = true := by
  induction s with
  | nil => simp [List.takeWhile] at h
  | cons x xs ih =>
    rw [List.takeWhile_cons] at h
    by_cases hx : Char.isDigit x
    · rw [if_pos hx] at h
      rcases List.mem_cons.mp h with rfl | h2
      · exact hx
      · exact ih h2
    · rw [if_neg hx] at h
      exact absurd h (List.not_mem_nil c)

/-- A string accepted by the unsigned float grammar consists of digits and at
most one decimal point. -/
lemma pyFloatCore_chars {s : List Char} (h : (pyFloatCore? s).isSome) :
    ∀ c ∈ s, c.isDigit = true ∨ c = '.' := by
  intro c hc
  have hsplit : s.takeWhile Char.isDigit ++ s.dropWhile Char.isDigit = s :=
    List.takeWhile_append_dropWhile _ _
  rw [← hsplit] at hc
  rcases List.mem_append.mp hc with h1 | h2
  · exact Or.inl (mem_takeWhile_digit h1)
  · unfold pyFloatCore? at h
    split at h
    · next heq => rw [heq] at h2; exact absurd h2 (List.not_mem_nil c)
    · next fp heq =>
      rw [heq] at h2
      split at h
      · next hcond =>
        rcases List.mem_cons.mp h2 with rfl | h3
        · exact Or.inr rfl
        · exact Or.inl (List.all_eq_true.mp hcond.1 c h3)
      · simp at h
    · simp at h

lemma no_comma_of_core {s : List Char} (h : (pyFloatCore? s).isSome) : ',' ∉ s := by
  intro hc
  rcases pyFloatCore_chars h ',' hc with hd | hd
  · exact absurd hd (by decide)
  · exact absurd hd (by decide)

/-- A string accepted by `pyFloat?` never contains the delimiter `,`. -/
lemma pyFloat_no_comma {s : List Char} (h : (pyFloat? s).isSome) : ',' ∉ s := by
  intro hc
  unfold pyFloat? at h
  split at h
  · next r =>
    rw [Option.isSome_map'] at h
    rcases List.mem_cons.mp hc with h1 | h1
    · exact absurd h1 (by decide)
    · exact no_comma_of_core h h1
  · next r =>
    rcases List.mem_cons.mp hc with h1 | h1
    · exact absurd h1 (by decide)
    · exact no_comma_of_core h h1
  · next r _ _ => exact no_comma_of_core h hc

/-! ### Splitting a delimiter-joined line recovers the fields -/

lemma splitOnceAux_append {f r : List Char} (hf : ',' ∉ f) :
    splitOnceAux ',' (f ++ ',' :: r) = some (f, r) := by
  induction f with
  | nil => simp [splitOnceAux]
  | cons c cs ih =>
    have hc : ¬(c = ',') := fun h => hf (h ▸ List.mem_cons_self c cs)
    have ihh := ih (fun h => hf (List.mem_cons_of_mem c h))
    simp only [List.cons_append, splitOnceAux, if_neg hc, List.append_eq, ihh,
      Option.map_some']

lemma pySplit_joinFields : ∀ (fs : List (List Char)), fs ≠ [] →
    (∀ f ∈ fs, ',' ∉ f) →
    pySplit ',' (fs.length - 1) (joinFields fs) = fs := by
  intro fs
  induction fs with
  | nil => intro h; exact absurd rfl h
  | cons f rest ih =>
    intro _ hall
    cases rest with
    | nil => rfl
    | cons g rest2 =>
      have hfc : ',' ∉ f := hall f (List.mem_cons_self f _)
      have hrest : ∀ x ∈ g :: rest2, ',' ∉ x :=
        fun x hx => hall x (List.mem_cons_of_mem f hx)
      have hlen : (f :: g :: rest2).length - 1 = rest2.length + 1 := by simp
      rw [hlen]
      show pySplit ',' (rest2.length + 1) (joinFields (f :: g :: rest2)) = _
      rw [joinFields]
      simp only [pySplit, splitOnceAux_append hfc]
      have ihh := ih (by simp) hrest
      have : (g :: rest2).length - 1 = rest2.length := by simp
      rw [this] at ihh
      rw [ihh]

lemma joinFields_length : ∀ (fs : List (List Char)), (∀ f ∈ fs, f.length = 13) →
    fs ≠ [] → (joinFields fs).length = 14 * fs.length - 1 := by
  intro fs
  induction fs with
  | nil => intro _ h; exact absurd rfl h
  | cons f rest ih =>
    intro hall _
    cases rest with
    | nil => simp [joinFields, hall f (List.mem_cons_self f _)]
    | cons g rest2 =>
      have hf : f.length = 13 := hall f (List.mem_cons_self f _)
      have ihh := ih (fun x hx => hall x (List.mem_cons_of_mem f hx)) (by simp)
      rw [joinFields]
      simp only [List.length_append, List.length_cons, hf, ihh]
      omega

/-! ### Preamble strings -/

lemma preambleStr_length_fin : ∀ i : Fin 100, (preambleStr (i : Nat)).length = 4 := by decide

lemma preambleStr_length {i : Nat} (hi : i ≤ 99) :
    (preambleStr i).length = PREAMBLE_SIZE :=
  preambleStr_length_fin ⟨i, by omega⟩

lemma preambleStr_ne_next_fin :
    ∀ i : Fin 100, preambleStr (i : Nat) ≠ preambleStr ((i : Nat) + 1) := by decide

lemma preambleStr_ne_next {i : Nat} (hi : i ≤ 99) :
    preambleStr i ≠ preambleStr (i + 1) :=
  preambleStr_ne_next_fin ⟨i, by omega⟩

lemma preambleStr_no_comma_fin : ∀ i : Fin 100, ',' ∉ preambleStr (i : Nat) := by decide

lemma preambleStr_no_comma {i : Nat} (hi : i ≤ 99) : ',' ∉ preambleStr i :=
  preambleStr_no_comma_fin ⟨i, by omega⟩

/-! ### Field-list builders -/

lemma mkFields_length : ∀ (k : Nat) (vs : List (List Char)),
    (mkFields k vs).length = vs.length := by
  intro k vs
  induction vs generalizing k with
  | nil => rfl
  | cons v rest ih => simp [mkFields, ih]

lemma mkFieldsOld_eq_mkFields : ∀ (k : Nat) (vs : List (List Char)),
    mkFieldsOld k vs = mkFields (k + 1) vs := by
  intro k vs
  induction vs generalizing k with
  | nil => rfl
  | cons v rest ih => simp [mkFieldsOld, mkFields, oldPreambleStr, ih]

lemma mkFields_getElem? : ∀ (k : Nat) (vs : List (List Char)) (i : Nat),
    (mkFields k vs)[i]? = (vs[i]?).map (fun v => preambleStr (k + i) ++ v) := by
  intro k vs
  induction vs generalizing k with
  | nil => intro i; simp [mkFields]
  | cons v rest ih =>
    intro i
    cases i with
    | zero => simp [mkFields]
    | succ j =>
      have harith : k + 1 + j = k + (j + 1) := by omega
      simp only [mkFields, List.getElem?_cons_succ, ih (k + 1) j, harith]

lemma mkFields_no_comma : ∀ (k : Nat) (vs : List (List Char)),
    k + vs.length ≤ 100 → (∀ v ∈ vs, ',' ∉ v) →
    ∀ f ∈ mkFields k vs, ',' ∉ f := by
  intro k vs
  induction vs generalizing k with
  | nil => intro _ _ f hf; simp [mkFields] at hf
  | cons v rest ih =>
    intro hk hall f hf
    rcases List.mem_cons.mp hf with rfl | hf2
    · intro hc
      rcases List.mem_append.mp hc with h1 | h1
      · exact preambleStr_no_comma (by simp at hk; omega) h1
      · exact hall v (List.mem_cons_self v rest) h1
    · exact ih (k + 1) (by simp at hk ⊢; omega)
        (fun x hx => hall x (List.mem_cons_of_mem v hx)) f hf2

lemma mkFields_len13 : ∀ (k : Nat) (vs : List (List Char)),
    k + vs.length ≤ 100 → (∀ v ∈ vs, v.length = 9) →
    ∀ f ∈ mkFields k vs, f.length = 13 := by
  intro k vs
  induction vs generalizing k with
  | nil => intro _ _ f hf; simp [mkFields] at hf
  | cons v rest ih =>
    intro hk hall f hf
    rcases List.mem_cons.mp hf with rfl | hf2
    · rw [List.length_append, hall v (List.mem_cons_self v rest),
        preambleStr_length (by simp at hk; omega)]
      rfl
    · exact ih (k + 1) (by simp at hk ⊢; omega)
        (fun x hx => hall x (List.mem_cons_of_mem v hx)) f hf2

/-! ### The channel loop -/

/-- The value stored by one loop iteration does not depend on the incoming
error string. -/
lemma processChannel_snd (p o f s e : List Char) :
    (processChannel p o f s e).2 = (processChannel p o f s []).2 := by
  unfold processChannel
  by_cases h1 : (test_val p f || test_val o f) = true
  · rw [if_pos h1, if_pos h1]
    by_cases h2 : f.drop PREAMBLE_SIZE ≠ SENSOR_UNCONNECTED_VAL
    · rw [if_pos h2, if_pos h2]
      cases pyFloat? (f.drop PREAMBLE_SIZE) <;> rfl
    · rw [if_neg h2, if_neg h2]
  · rw [if_neg h1, if_neg h1]

/-- Full characterisation of the channel loop when every index is in range:
the final error string is a fold of the per-channel error updates, and the
buffer is the fold of the per-channel assignments. -/
lemma loopChannels_spec (temps : List (List Char)) (serLine : List Char) :
    ∀ (idxs : List Nat) (err : List Char) (temperature : List PyVal),
      (∀ i ∈ idxs, i < temps.length ∧ i < temperature.length) →
      loopChannels temps serLine idxs err temperature =
        some (idxs.foldl (fun e i => chanErrUpd i (temps.getD i []) serLine e) err,
              idxs.foldl (fun tp i => tp.set i (chanVal i (temps.getD i []) serLine))
                temperature) := by
  intro idxs
  induction idxs with
  | nil => intro err temperature _; rfl
  | cons i rest ih =>
    intro err temperature h
    have hi := h i (List.mem_cons_self i rest)
    have hget : temps.get? i = some (temps.getD i []) := by
      rw [List.get?_eq_get hi.1, List.getD_eq_get?, List.get?_eq_get hi.1]
      rfl
    simp only [loopChannels, hget, if_pos hi.2]
    have hrec := ih (chanErrUpd i (temps.getD i []) serLine err)
      (temperature.set i (chanVal i (temps.getD i []) serLine))
      (by
        intro j hj
        refine ⟨(h j (List.mem_cons_of_mem i hj)).1, ?_⟩
        rw [List.length_set]
        exact (h j (List.mem_cons_of_mem i hj)).2)
    have hfst : (processChannel (preambleStr i) (oldPreambleStr i)
        (temps.getD i []) serLine err).1 = chanErrUpd i (temps.getD i []) serLine err := rfl
    have hsnd : (processChannel (preambleStr i) (oldPreambleStr i)
        (temps.getD i []) serLine err).2 = chanVal i (temps.getD i []) serLine :=
      processChannel_snd _ _ _ _ _
    rw [hfst, hsnd, hrec]
    simp only [List.foldl_cons]

/-- Folding per-index assignments over `range' k m` rewrites the suffix of the
buffer from position `k` on. -/
lemma foldl_set_range' (g : Nat → PyVal) :
    ∀ (m k : Nat) (l : List PyVal), k + m = l.length →
      (List.range' k m).foldl (fun tp i => tp.set i (g i)) l =
        l.take k ++ (List.range' k m).map g := by
  intro m
  induction m with
  | zero =>
    intro k l h
    obtain rfl : k = l.length := by omega
    simp [List.range']
  | succ m ih =>
    intro k l h
    have hk : k < l.length := by omega
    rw [List.range'_succ]
    simp only [List.foldl_cons, List.map_cons]
    rw [ih (k + 1) (l.set k (g k)) (by rw [List.length_set]; omega)]
    rw [List.set_eq_take_cons_drop _ hk]
    have htk : (l.take k).length = k := by
      rw [List.length_take]; omega
    rw [List.take_append_eq_append_take]
    rw [List.take_of_length_le (by omega), htk]
    have : k + 1 - k = 1 := by omega
    rw [this]
    simp [List.append_assoc]

/-- Folding per-index assignments over `range n` on a buffer of length `n`
replaces the whole buffer. -/
lemma foldl_set_range (g : Nat → PyVal) (l : List PyVal) (n : Nat)
    (h : l.length = n) :
    (List.range n).foldl (fun tp i => tp.set i (g i)) l = (List.range n).map g := by
  rw [List.range_eq_range', foldl_set_range' g n 0 l (by omega)]
  simp

/-- Generic congruence for `foldl` on the elements actually traversed. -/
lemma foldl_congr_mem {α β : Type} {f g : β → α → β} :
    ∀ (l : List α) (b : β), (∀ b' a, a ∈ l → f b' a = g b' a) →
      l.foldl f b = l.foldl g b := by
  intro l
  induction l with
  | nil => intro b _; rfl
  | cons a l ih =>
    intro b h
    simp only [List.foldl_cons]
    rw [h b a (List.mem_cons_self a l)]
    exact ih _ (fun b' x hx => h b' x (List.mem_cons_of_mem a hx))

/-- Folding an error update that either keeps the accumulator or replaces it
by a fixed message `m` yields the original value iff no traversed index
fails. -/
lemma foldl_if_err (P : Nat → Prop) [DecidablePred P] (m : List Char) :
    ∀ (idxs : List Nat) (err : List Char),
      idxs.foldl (fun e i => if P i then e else m) err =
        if ∀ i ∈ idxs, P i then err else m := by
  intro idxs
  induction idxs with
  | nil => intro err; simp
  | cons i rest ih =>
    intro err
    simp only [List.foldl_cons]
    by_cases hp : P i
    · rw [if_pos hp, ih err]
      by_cases hr : ∀ j ∈ rest, P j
      · rw [if_pos hr, if_pos]
        intro j hj
        rcases List.mem_cons.mp hj with rfl | hj2
        · exact hp
        · exact hr j hj2
      · rw [if_neg hr, if_neg]
        intro hall
        exact hr fun j hj => hall j (List.mem_cons_of_mem i hj)
    · rw [if_neg hp, ih m, ite_self, if_neg]
      intro hall
      exact hp (hall i (List.mem_cons_self i rest))

/-! ### Output assembly -/

lemma collectOutput_range' :
    ∀ (m k : Nat) (l : List PyVal), k + m = l.length →
      collectOutput l (List.range' k m) = some (l.drop k) := by
  intro m
  induction m with
  | zero =>
    intro k l h
    obtain rfl : k = l.length := by omega
    simp [List.range', collectOutput]
  | succ m ih =>
    intro k l h
    have hk : k < l.length := by omega
    rw [List.range'_succ]
    simp only [collectOutput, List.get?_eq_get hk]
    rw [ih (k + 1) l (by omega)]
    simp only [Option.map_some']
    rw [show l.get ⟨k, hk⟩ = l[k] from rfl, ← List.drop_eq_getElem_cons hk]

/-- Assembling the output over `range n` of a buffer of length `n` returns
the whole buffer. -/
lemma collectOutput_range (l : List PyVal) (n : Nat) (h : l.length = n) :
    collectOutput l (List.range n) = some l := by
  rw [List.range_eq_range', collectOutput_range' n 0 l (by omega)]
  rfl

/-! ### Evaluating one channel on a well-formed field -/

lemma test_val_correct_pre {p v : List Char} (hp : p.length = PREAMBLE_SIZE)
    (hv : v.length = 9) : test_val p (p ++ v) = (pyFloat? v).isSome := by
  unfold test_val
  rw [List.take_left' hp, if_pos rfl, List.drop_left' hp]
  have h9 : PREAMBLE_SIZE + VALUE_SIZE + DELIMITER.length - 1 - PREAMBLE_SIZE = 9 := rfl
  rw [h9, List.take_of_length_le (by omega)]

lemma test_val_wrong_pre {p q v : List Char} (hq : q.length = PREAMBLE_SIZE)
    (hne : q ≠ p) : test_val p (q ++ v) = false := by
  unfold test_val
  rw [List.take_left' hq, if_neg hne]

/-- The value stored for channel `i` when the field carries the
current-convention preamble and a 9-character value string. -/
lemma chanVal_cur {i : Nat} (hi : i ≤ 99) {v : List Char} (hv : v.length = 9)
    (serLine : List Char) :
    chanVal i (preambleStr i ++ v) serLine = fieldResult v := by
  have hp : (preambleStr i).length = PREAMBLE_SIZE := preambleStr_length hi
  unfold chanVal processChannel fieldResult
  simp only [oldPreambleStr]
  simp only [test_val_correct_pre hp hv,
    test_val_wrong_pre hp (preambleStr_ne_next hi), Bool.or_false,
    List.drop_left' hp]
  by_cases hs : (pyFloat? v).isSome = true
  · rw [if_pos hs]
    by_cases hsent : v ≠ SENSOR_UNCONNECTED_VAL
    · rw [if_pos hsent, if_pos ⟨hs, hsent⟩]
      obtain ⟨q, hq⟩ := Option.isSome_iff_exists.mp hs
      rw [hq]
      rfl
    · rw [if_neg hsent, if_neg (fun hc => hsent hc.2)]
  · rw [if_neg hs, if_neg (fun hc => hs hc.1)]

/-- The error-string update for channel `i` when the field carries the
current-convention preamble and a 9-character value string: an error is
recorded only when the value fails to parse (the unconnected sentinel is
passed over silently). -/
lemma chanErrUpd_cur {i : Nat} (hi : i ≤ 99) {v : List Char} (hv : v.length = 9)
    (serLine e : List Char) :
    chanErrUpd i (preambleStr i ++ v) serLine e =
      if (pyFloat? v).isSome then e else malformedChanErr serLine := by
  have hp : (preambleStr i).length = PREAMBLE_SIZE := preambleStr_length hi
  unfold chanErrUpd processChannel
  simp only [oldPreambleStr]
  simp only [test_val_correct_pre hp hv,
    test_val_wrong_pre hp (preambleStr_ne_next hi), Bool.or_false,
    List.drop_left' hp]
  by_cases hs : (pyFloat? v).isSome = true
  · rw [if_pos hs, if_pos hs]
    obtain ⟨q, hq⟩ := Option.isSome_iff_exists.mp hs
    by_cases hsent : v ≠ SENSOR_UNCONNECTED_VAL
    · rw [if_pos hsent, hq]
    · rw [if_neg hsent]
  · rw [if_neg hs, if_neg hs]

/-- The value stored for channel `i` when the field carries the *legacy*
(off-by-one) preamble and a 9-character value string: identical to the
current-convention case. -/
lemma chanVal_old {i : Nat} (hi : i + 1 ≤ 99) {v : List Char} (hv : v.length = 9)
    (serLine : List Char) :
    chanVal i (oldPreambleStr i ++ v) serLine = fieldResult v := by
  have hp : (preambleStr (i + 1)).length = PREAMBLE_SIZE := preambleStr_length hi
  unfold chanVal processChannel fieldResult
  simp only [oldPreambleStr]
  simp only [test_val_correct_pre hp hv,
    test_val_wrong_pre hp (Ne.symm (preambleStr_ne_next (by omega))),
    Bool.false_or, List.drop_left' hp]
  by_cases hs : (pyFloat? v).isSome = true
  · rw [if_pos hs]
    by_cases hsent : v ≠ SENSOR_UNCONNECTED_VAL
    · rw [if_pos hsent, if_pos ⟨hs, hsent⟩]
      obtain ⟨q, hq⟩ := Option.isSome_iff_exists.mp hs
      rw [hq]
      rfl
    · rw [if_neg hsent, if_neg (fun hc => hsent hc.2)]
  · rw [if_neg hs, if_neg (fun hc => hs hc.1)]

/-- The error-string update for channel `i` under the legacy preamble:
identical to the current-convention case. -/
lemma chanErrUpd_old {i : Nat} (hi : i + 1 ≤ 99) {v : List Char} (hv : v.length = 9)
    (serLine e : List Char) :
    chanErrUpd i (oldPreambleStr i ++ v) serLine e =
      if (pyFloat? v).isSome then e else malformedChanErr serLine := by
  have hp : (preambleStr (i + 1)).length = PREAMBLE_SIZE := preambleStr_length hi
  unfold chanErrUpd processChannel
  simp only [oldPreambleStr]
  simp only [test_val_correct_pre hp hv,
    test_val_wrong_pre hp (Ne.symm (preambleStr_ne_next (by omega))),
    Bool.false_or, List.drop_left' hp]
  by_cases hs : (pyFloat? v).isSome = true
  · rw [if_pos hs, if_pos hs]
    obtain ⟨q, hq⟩ := Option.isSome_iff_exists.mp hs
    by_cases hsent : v ≠ SENSOR_UNCONNECTED_VAL
    · rw [if_pos hsent, hq]
    · rw [if_neg hsent]
  · rw [if_neg hs, if_neg hs]

/-! ### Reading a structurally well-formed frame -/

/-- Master lemma: `read` on a transport-OK raw line built by joining `channels`
comma-free 13-character fields and appending the terminator passes the framing
checks, splits back into exactly those fields, and runs the channel loop on
each of them in index order. -/
lemma read_mkFrame (ch : Nat) (old : List PyVal) (t : ℚ)
    (fields : List (List Char))
    (hch : 1 ≤ ch) (hold : old.length = ch) (hf : fields.length = ch)
    (hlen13 : ∀ f ∈ fields, f.length = 13) (hcomma : ∀ f ∈ fields, ',' ∉ f) :
    SelTemperature.read ⟨ch, old⟩ t okStatus (joinFields fields ++ TERMINATOR) =
      some (⟨ch, (List.range ch).map
              (fun i => chanVal i (fields.getD i []) (joinFields fields ++ TERMINATOR))⟩,
        ⟨t, (List.range ch).foldl
              (fun e i => chanErrUpd i (fields.getD i []) (joinFields fields ++ TERMINATOR) e)
              okStatus,
          (List.range ch).map
              (fun i => chanVal i (fields.getD i []) (joinFields fields ++ TERMINATOR))⟩) := by
  have hfne : fields ≠ [] := by
    intro h0
    rw [h0] at hf
    simp at hf
    omega
  have hJlen : (joinFields fields).length = 14 * ch - 1 := by
    rw [joinFields_length fields hlen13 hfne, hf]
  have hterm : TERMINATOR.length = 2 := rfl
  have hslen : (joinFields fields ++ TERMINATOR).length = 14 * ch - 1 + 2 := by
    rw [List.length_append, hJlen, hterm]
  have hsub : (joinFields fields ++ TERMINATOR).length - TERMINATOR.length
      = (joinFields fields).length := by
    rw [List.length_append]
    omega
  have hdrop : (joinFields fields ++ TERMINATOR).drop
      ((joinFields fields ++ TERMINATOR).length - TERMINATOR.length) = TERMINATOR := by
    rw [hsub]
    exact List.drop_left _ _
  have hrls : (joinFields fields ++ TERMINATOR).length = readLineSize ch := by
    rw [hslen]
    unfold readLineSize
    have h14 : PREAMBLE_SIZE + VALUE_SIZE + DELIMITER.length = 14 := rfl
    have h1 : DELIMITER.length = 1 := rfl
    rw [h14, h1, hterm]
    omega
  have htake : (joinFields fields ++ TERMINATOR).take
      ((joinFields fields ++ TERMINATOR).length - TERMINATOR.length)
      = joinFields fields := by
    rw [hsub]
    exact List.take_left _ _
  have hsplit : pySplit ',' (ch - 1) (joinFields fields) = fields := by
    have := pySplit_joinFields fields hfne hcomma
    rw [hf] at this
    exact this
  have hloop := loopChannels_spec fields (joinFields fields ++ TERMINATOR)
    (List.range ch) okStatus old
    (by
      intro i hi
      have hilt : i < ch := List.mem_range.mp hi
      constructor
      · rw [hf]; exact hilt
      · rw [hold]; exact hilt)
  rw [foldl_set_range
    (fun i => chanVal i (fields.getD i []) (joinFields fields ++ TERMINATOR))
    old ch hold] at hloop
  have hvalslen : ((List.range ch).map
      (fun i => chanVal i (fields.getD i []) (joinFields fields ++ TERMINATOR))).length
      = ch := by
    rw [List.length_map, List.length_range]
  unfold SelTemperature.read
  rw [if_pos (rfl : okStatus = okStatus)]
  rw [if_pos (And.intro hdrop hrls)]
  rw [htake, hsplit, hloop]
  unfold assembleOutput
  simp only [collectOutput_range _ ch hvalslen]

/-- The terminator/size error status is never the `"OK"` status. -/
lemma termErr_ne_ok (serLine : List Char) : termErr serLine ≠ okStatus := by
  intro h
  have hlen := congrArg List.length h
  unfold termErr okStatus at hlen
  rw [List.length_append] at hlen
  have h1 : ("Malformed response. Terminator or line size incorrect: ".toList).length
      = 55 := rfl
  have h2 : ("OK".toList).length = 2 := rfl
  rw [h1, h2] at hlen
  omega

/-- Generic characterisation of `read` on a well-formed frame whose field `i`
decodes like a correctly-preambled field carrying the value string `vs[i]`:
the resulting values are `vs.map fieldResult` (also persisted), and the status
is `"OK"` unless some value string fails to parse. -/
lemma read_frame_spec (ch : Nat) (old : List PyVal) (t : ℚ)
    (vs fields : List (List Char))
    (hch : 1 ≤ ch) (hold : old.length = ch) (hvs : vs.length = ch)
    (hf : fields.length = ch)
    (hlen13 : ∀ f ∈ fields, f.length = 13) (hcomma : ∀ f ∈ fields, ',' ∉ f)
    (hval : ∀ i, i < ch →
      chanVal i (fields.getD i []) (joinFields fields ++ TERMINATOR)
        = fieldResult (vs.getD i []))
    (herr : ∀ i (e : List Char), i < ch →
      chanErrUpd i (fields.getD i []) (joinFields fields ++ TERMINATOR) e
        = if (pyFloat? (vs.getD i [])).isSome = true then e
          else malformedChanErr (joinFields fields ++ TERMINATOR)) :
    SelTemperature.read ⟨ch, old⟩ t okStatus (joinFields fields ++ TERMINATOR) =
      some (⟨ch, vs.map fieldResult⟩,
        ⟨t, if ∀ v ∈ vs, (pyFloat? v).isSome = true then okStatus
            else malformedChanErr (joinFields fields ++ TERMINATOR),
          vs.map fieldResult⟩) := by
  have hmem : ∀ i, i < ch → vs.getD i [] ∈ vs := by
    intro i hi
    have hiv : i < vs.length := by omega
    rw [List.getD_eq_getElem?_getD, List.getElem?_eq_getElem hiv]
    exact List.getElem_mem hiv
  rw [read_mkFrame ch old t fields hch hold hf hlen13 hcomma]
  have hA : (List.range ch).map
      (fun i => chanVal i (fields.getD i []) (joinFields fields ++ TERMINATOR))
      = vs.map fieldResult := by
    apply List.ext_getElem?
    intro n
    rw [List.getElem?_map, List.getElem?_map]
    by_cases hn : n < ch
    · have hnv : n < vs.length := by omega
      rw [List.getElem?_range hn, List.getElem?_eq_getElem hnv]
      simp only [Option.map_some']
      rw [hval n hn]
      have : vs.getD n [] = vs[n] := by
        rw [List.getD_eq_getElem?_getD, List.getElem?_eq_getElem hnv]
        rfl
      rw [this]
    · rw [List.getElem?_eq_none (by rw [List.length_range]; omega),
        List.getElem?_eq_none (by omega)]
      rfl
  have hE : (List.range ch).foldl
      (fun e i => chanErrUpd i (fields.getD i []) (joinFields fields ++ TERMINATOR) e)
      okStatus
      = if ∀ v ∈ vs, (pyFloat? v).isSome = true then okStatus
        else malformedChanErr (joinFields fields ++ TERMINATOR) := by
    rw [foldl_congr_mem (List.range ch) okStatus
      (fun e i hi => herr i e (List.mem_range.mp hi))]
    rw [foldl_if_err (fun i => (pyFloat? (vs.getD i [])).isSome = true)
      (malformedChanErr (joinFields fields ++ TERMINATOR)) (List.range ch) okStatus]
    by_cases hall : ∀ v ∈ vs, (pyFloat? v).isSome = true
    · rw [if_pos (fun i hi => hall _ (hmem i (List.mem_range.mp hi))), if_pos hall]
    · rw [if_neg ?hleft, if_neg hall]
      case hleft =>
        intro hcontra
        apply hall
        intro v hvv
        obtain ⟨n, hn, hget⟩ := List.getElem_of_mem hvv
        have hnc : n < ch := by omega
        have := hcontra n (List.mem_range.mpr hnc)
        rw [List.getD_eq_getElem?_getD, List.getElem?_eq_getElem hn] at this
        rw [← hget]
        exact this
  rw [hA, hE]

/-- Evaluation of `read` on a frame in the current preamble convention built from
9-character comma-free value strings. -/
lemma read_mkFrameCur_spec (ch : Nat) (old : List PyVal) (t : ℚ)
    (vs : List (List Char))
    (hch : 1 ≤ ch) (hch2 : ch ≤ 100) (hold : old.length = ch)
    (hvs : vs.length = ch) (hv9 : ∀ v ∈ vs, v.length = 9)
    (hcomma : ∀ v ∈ vs, ',' ∉ v) :
    SelTemperature.read ⟨ch, old⟩ t okStatus (mkFrameCur vs) =
      some (⟨ch, vs.map fieldResult⟩,
        ⟨t, if ∀ v ∈ vs, (pyFloat? v).isSome = true then okStatus
            else malformedChanErr (mkFrameCur vs),
          vs.map fieldResult⟩) := by
  have hmem : ∀ i, i < ch → vs.getD i [] ∈ vs := by
    intro i hi
    have hiv : i < vs.length := by omega
    rw [List.getD_eq_getElem?_getD, List.getElem?_eq_getElem hiv]
    exact List.getElem_mem hiv
  have hgd : ∀ i, i < ch →
      (mkFields 0 vs).getD i [] = preambleStr i ++ vs.getD i [] := by
    intro i hi
    have hiv : i < vs.length := by omega
    rw [List.getD_eq_getElem?_getD, mkFields_getElem?,
      List.getElem?_eq_getElem hiv, List.getD_eq_getElem?_getD,
      List.getElem?_eq_getElem hiv]
    simp
  have h0 : mkFrameCur vs = joinFields (mkFields 0 vs) ++ TERMINATOR := rfl
  rw [h0]
  apply read_frame_spec ch old t vs (mkFields 0 vs) hch hold hvs
    (by rw [mkFields_length, hvs])
    (mkFields_len13 0 vs (by omega) hv9)
    (mkFields_no_comma 0 vs (by omega) hcomma)
  · intro i hi
    rw [hgd i hi]
    exact chanVal_cur (by omega) (hv9 _ (hmem i hi)) _
  · intro i e hi
    rw [hgd i hi]
    exact chanErrUpd_cur (by omega) (hv9 _ (hmem i hi)) _ _

/-- Evaluation of `read` on a frame in the legacy (off-by-one) preamble convention built
from 9-character comma-free value strings: same outcome as the current
convention, except that the raw line inside a (possible) error message is the
legacy line. -/
lemma read_mkFrameOld_spec (ch : Nat) (old : List PyVal) (t : ℚ)
    (vs : List (List Char))
    (hch : 1 ≤ ch) (hch2 : ch ≤ 99) (hold : old.length = ch)
    (hvs : vs.length = ch) (hv9 : ∀ v ∈ vs, v.length = 9)
    (hcomma : ∀ v ∈ vs, ',' ∉ v) :
    SelTemperature.read ⟨ch, old⟩ t okStatus (mkFrameOld vs) =
      some (⟨ch, vs.map fieldResult⟩,
        ⟨t, if ∀ v ∈ vs, (pyFloat? v).isSome = true then okStatus
            else malformedChanErr (mkFrameOld vs),
          vs.map fieldResult⟩) := by
  have hmem : ∀ i, i < ch → vs.getD i [] ∈ vs := by
    intro i hi
    have hiv : i < vs.length := by omega
    rw [List.getD_eq_getElem?_getD, List.getElem?_eq_getElem hiv]
    exact List.getElem_mem hiv
  have hgd : ∀ i, i < ch →
      (mkFieldsOld 0 vs).getD i [] = oldPreambleStr i ++ vs.getD i [] := by
    intro i hi
    have hiv : i < vs.length := by omega
    rw [mkFieldsOld_eq_mkFields, List.getD_eq_getElem?_getD, mkFields_getElem?,
      List.getElem?_eq_getElem hiv, List.getD_eq_getElem?_getD,
      List.getElem?_eq_getElem hiv]
    unfold oldPreambleStr
    have : 0 + 1 + i = i + 1 := by omega
    rw [this]
    rfl
  have h0 : mkFrameOld vs = joinFields (mkFieldsOld 0 vs) ++ TERMINATOR := rfl
  rw [h0]
  apply read_frame_spec ch old t vs (mkFieldsOld 0 vs) hch hold hvs
    (by rw [mkFieldsOld_eq_mkFields, mkFields_length, hvs])
    (by rw [mkFieldsOld_eq_mkFields]
        exact mkFields_len13 1 vs (by omega) hv9)
    (by rw [mkFieldsOld_eq_mkFields]
        exact mkFields_no_comma 1 vs (by omega) hcomma)
  · intro i hi
    rw [hgd i hi]
    exact chanVal_old (by omega) (hv9 _ (hmem i hi)) _
  · intro i e hi
    rw [hgd i hi]
    exact chanErrUpd_old (by omega) (hv9 _ (hmem i hi)) _ _

/-! ### Claim theorems -/

/-- Claim C1: for every raw line whose transport status is OK, that ends with
the 2-character terminator, has exactly the expected line length, and whose
`channels` fields each carry the current-convention preamble `C{i:02d}=`
followed by a 9-character value that parses as a real number and is not the
unconnected sentinel, `read()` produces a Sample with status OK and, for
every channel index `i`, `values[i]` equal to the parsed float of field `i`,
in index order.  (Such lines are exactly `mkFrameCur vs` for value strings
`vs`; preambles are 4 characters for the at most 100 channels the 2-digit
format covers.) -/
theorem C1_valid_frame_read_ok (ch : Nat) (old : List PyVal) (t : ℚ)
    (vs : List (List Char))
    (hch : 1 ≤ ch) (hch2 : ch ≤ 100) (hold : old.length = ch)
    (hvs : vs.length = ch)
    (hv : ∀ v ∈ vs, v.length = 9 ∧ (pyFloat? v).isSome = true
      ∧ v ≠ SENSOR_UNCONNECTED_VAL) :
    SelTemperature.read ⟨ch, old⟩ t okStatus (mkFrameCur vs) =
      some (⟨ch, vs.map (fun v => PyVal.num ((pyFloat? v).getD 0))⟩,
        ⟨t, okStatus, vs.map (fun v => PyVal.num ((pyFloat? v).getD 0))⟩) := by
  have hcomma : ∀ v ∈ vs, ',' ∉ v := fun v hvv => pyFloat_no_comma (hv v hvv).2.1
  rw [read_mkFrameCur_spec ch old t vs hch hch2 hold hvs
    (fun v hvv => (hv v hvv).1) hcomma]
  rw [if_pos (fun v hvv => (hv v hvv).2.1)]
  have hmap : vs.map fieldResult
      = vs.map (fun v => PyVal.num ((pyFloat? v).getD 0)) := by
    apply List.map_congr_left
    intro v hvv
    unfold fieldResult
    rw [if_pos ⟨(hv v hvv).2.1, (hv v hvv).2.2⟩]
  rw [hmap]

/-- Claim C1 witness: a one-channel frame carrying `0018.1234` decodes to
status OK and the parsed value `18.1234`. -/
theorem C1_valid_frame_read_ok_witness :
    SelTemperature.read ⟨1, [DEFAULT_VAL]⟩ 0 okStatus
        (mkFrameCur ["0018.1234".toList]) =
      some (⟨1, [PyVal.num ((pyFloat? ("0018.1234".toList)).getD 0)]⟩,
        ⟨0, okStatus, [PyVal.num ((pyFloat? ("0018.1234".toList)).getD 0)]⟩) :=
  C1_valid_frame_read_ok 1 [DEFAULT_VAL] 0 ["0018.1234".toList]
    (by decide) (by decide) rfl rfl (by decide)

/-- Claim C2 counterexample: a fresh one-channel decoder that previously
persisted the value `25.5` reads an otherwise well-formed frame whose field
is the unconnected sentinel `-201.0000`.  Contrary to the claim, `read()`
records *no* error (the status stays `"OK"`), and the previously persisted
last-good value is *not* left in place in the output record: both the output
and the persisted buffer now hold the decode-error default string
`9999.9990`. -/
theorem C2_sentinel_overwrites_counterexample :
    SelTemperature.read ⟨1, [PyVal.num (51 / 2)]⟩ 0 okStatus
        ("C00=-201.0000".toList ++ TERMINATOR) =
      some (⟨1, [DEFAULT_VAL]⟩, ⟨0, okStatus, [DEFAULT_VAL]⟩)
    ∧ DEFAULT_VAL ≠ PyVal.num (51 / 2) ∧ okStatus = "OK".toList :=
  ⟨rfl, by decide, rfl⟩

/-- Claim C2 (amended): for every otherwise well-formed frame, a channel
whose 9-character value fails to parse contributes a "malformed response"
error to the status, while a channel whose value is the unconnected sentinel
is passed over silently (no error); in both cases the channel's output *and*
persisted value become the decode-error default `9999.9990` — the previous
last-good value is overwritten, not preserved — and every other correctly
decoded channel of the same frame carries its newly parsed value. -/
theorem C2_channel_error_default_amended (ch : Nat) (old : List PyVal) (t : ℚ)
    (vs : List (List Char))
    (hch : 1 ≤ ch) (hch2 : ch ≤ 100) (hold : old.length = ch)
    (hvs : vs.length = ch)
    (hv : ∀ v ∈ vs, v.length = 9 ∧ ',' ∉ v) :
    SelTemperature.read ⟨ch, old⟩ t okStatus (mkFrameCur vs) =
      some (⟨ch, vs.map fieldResult⟩,
        ⟨t, if ∀ v ∈ vs, (pyFloat? v).isSome = true then okStatus
            else malformedChanErr (mkFrameCur vs),
          vs.map fieldResult⟩) :=
  read_mkFrameCur_spec ch old t vs hch hch2 hold hvs
    (fun v hvv => (hv v hvv).1) (fun v hvv => (hv v hvv).2)

/-- Claim C2 (amended) witness: a two-channel frame whose first field is the
unconnected sentinel and whose second value is unparseable yields the
malformed-response status and the default string for both channels. -/
theorem C2_channel_error_default_amended_witness :
    SelTemperature.read ⟨2, [PyVal.num 20, PyVal.num 21]⟩ 0 okStatus
        (mkFrameCur ["-201.0000".toList, "abcdefghi".toList]) =
      some (⟨2, (["-201.0000".toList, "abcdefghi".toList]).map fieldResult⟩,
        ⟨0, if ∀ v ∈ ["-201.0000".toList, "abcdefghi".toList],
              (pyFloat? v).isSome = true then okStatus
            else malformedChanErr (mkFrameCur ["-201.0000".toList, "abcdefghi".toList]),
          (["-201.0000".toList, "abcdefghi".toList]).map fieldResult⟩) :=
  C2_channel_error_default_amended 2 [PyVal.num 20, PyVal.num 21] 0
    ["-201.0000".toList, "abcdefghi".toList]
    (by decide) (by decide) rfl rfl (by decide)

/-- Claim C3 (code divergence at the failing input): the claim — and the
`read` docstring, which promises that on a line-size/terminator error
"temperature data is populated with default value" — require every exposed
value of an error Sample to be the decode-error sentinel `9999.9990`.  The
code instead exposes the *persisted* per-channel values: after a successful
read of `18.1234` on a one-channel decoder, a subsequent read whose transport
status is `"ERR"` produces a Sample whose status is the transport error but
whose value is still `18.1234`, not the sentinel. -/
theorem C3_framing_error_exposes_persisted :
    (SelTemperature.read (initState 1) 0 okStatus
        ("C00=0018.1234".toList ++ TERMINATOR)).bind
      (fun r => SelTemperature.read r.1 1 ("ERR".toList) []) =
      some (⟨1, [PyVal.num (mkRat 181234 10000)]⟩,
        ⟨1, "ERR".toList, [PyVal.num (mkRat 181234 10000)]⟩)
    ∧ PyVal.num (mkRat 181234 10000) ≠ PyVal.str ("9999.9990".toList) :=
  ⟨by decide, by decide⟩

/-- Claim C4: on a framing error (wrong terminator or wrong line length with
transport status OK) the decoder's persisted last-good buffer is returned
unchanged — the new state equals the old state — while the Sample's status is
the descriptive terminator/size error, which is not `"OK"`. -/
theorem C4_framing_error_state_unchanged (st : SelState) (t : ℚ)
    (serLine : List Char) (hWF : WF st)
    (hbad : serLine.drop (serLine.length - TERMINATOR.length) ≠ TERMINATOR
      ∨ serLine.length ≠ readLineSize st.channels) :
    SelTemperature.read st t okStatus serLine
        = some (st, ⟨t, termErr serLine, st.temperature⟩)
      ∧ termErr serLine ≠ okStatus := by
  constructor
  · unfold SelTemperature.read
    rw [if_pos (rfl : okStatus = okStatus), if_neg (by
      intro hand
      rcases hbad with h | h
      · exact h hand.1
      · exact h hand.2)]
    simp only [assembleOutput, collectOutput_range st.temperature st.channels hWF]
  · exact termErr_ne_ok serLine

/-- Claim C4 witness: a one-channel decoder holding `18.1234` reads a line of
the right length whose terminator was replaced by `\n\n`; the state is
unchanged and the status is the terminator/size error. -/
theorem C4_framing_error_state_unchanged_witness :
    (SelTemperature.read ⟨1, [PyVal.num (90617 / 5000)]⟩ 0 okStatus
        ("C00=0018.1234".toList ++ ['\n', '\n'])
      = some (⟨1, [PyVal.num (90617 / 5000)]⟩,
        ⟨0, termErr ("C00=0018.1234".toList ++ ['\n', '\n']),
          [PyVal.num (90617 / 5000)]⟩))
    ∧ termErr ("C00=0018.1234".toList ++ ['\n', '\n']) ≠ okStatus :=
  C4_framing_error_state_unchanged ⟨1, [PyVal.num (90617 / 5000)]⟩ 0
    ("C00=0018.1234".toList ++ ['\n', '\n']) rfl (Or.inl (by decide))

/-- Claim C5: a frame that is valid under the legacy numbering convention
(field `i` carrying preamble `C{i+1:02d}=`) decodes to exactly the same
result — same status, same per-channel values, same new state — as the
identical frame written with the current convention `C{i:02d}=`. -/
theorem C5_legacy_preamble_equiv (ch : Nat) (old : List PyVal) (t : ℚ)
    (vs : List (List Char))
    (hch : 1 ≤ ch) (hch2 : ch ≤ 99) (hold : old.length = ch)
    (hvs : vs.length = ch)
    (hv : ∀ v ∈ vs, v.length = 9 ∧ (pyFloat? v).isSome = true
      ∧ v ≠ SENSOR_UNCONNECTED_VAL) :
    SelTemperature.read ⟨ch, old⟩ t okStatus (mkFrameOld vs) =
      SelTemperature.read ⟨ch, old⟩ t okStatus (mkFrameCur vs) := by
  have hcomma : ∀ v ∈ vs, ',' ∉ v := fun v hvv => pyFloat_no_comma (hv v hvv).2.1
  have hall : ∀ v ∈ vs, (pyFloat? v).isSome = true := fun v hvv => (hv v hvv).2.1
  rw [read_mkFrameOld_spec ch old t vs hch hch2 hold hvs
    (fun v hvv => (hv v hvv).1) hcomma]
  rw [read_mkFrameCur_spec ch old t vs hch (by omega) hold hvs
    (fun v hvv => (hv v hvv).1) hcomma]
  rw [if_pos hall, if_pos hall]

/-- Claim C5 witness: the one-channel frames `C01=0018.1234\r\n` (legacy) and
`C00=0018.1234\r\n` (current) decode identically. -/
theorem C5_legacy_preamble_equiv_witness :
    SelTemperature.read ⟨1, [DEFAULT_VAL]⟩ 0 okStatus
        (mkFrameOld ["0018.1234".toList]) =
      SelTemperature.read ⟨1, [DEFAULT_VAL]⟩ 0 okStatus
        (mkFrameCur ["0018.1234".toList]) :=
  C5_legacy_preamble_equiv 1 [DEFAULT_VAL] 0 ["0018.1234".toList]
    (by decide) (by decide) rfl rfl (by decide)

/-- Claim C6 (code divergence at the failing input): a transport-OK raw line
of exactly the expected length (57 characters for 4 channels) that ends with
the terminator but contains fewer than `channels - 1` delimiters makes
`read()` raise an uncaught `IndexError` (modelled as `none`) when it indexes
`temps[1]`, instead of returning a degraded Sample; `EssInstrument._run` has
no exception handling, so the exception terminates the poll loop. -/
theorem C6_missing_delimiter_raises :
    SelTemperature.read (initState 4) 0 okStatus
      (List.replicate 55 'x' ++ TERMINATOR) = none := rfl

/-- Claim C7 (code divergence): the duplicate-binding check of
`SelTemperature.__init__` consults the freshly assigned empty instance
dictionaries, so a second construction reusing a name (or device) that is
already in the construction history does not raise — contradicting the
class docstring "Raises IndexError if attempted multiple use of instance
name / of serial device instance". -/
theorem C7_duplicate_binding_not_rejected :
    selTemperatureInitRaises [("MockSensor".toList, 0)] ("MockSensor".toList) 0
      = false := rfl

/-- Claim C8 (code divergence): every Sample does carry a timestamp, a status
and exactly `channels` values in index order, but a sentinel entry is the
*string* `"9999.9990"` (the source's `DEFAULT_VAL` is a string literal despite
its `float` annotation), so not every entry of the values sequence is a
float: a fresh one-channel decoder reading a malformed line exposes a
non-float value. -/
theorem C8_sentinel_value_not_float :
    SelTemperature.read (initState 1) 0 okStatus ['x'] =
      some (initState 1, ⟨0, termErr ['x'], [DEFAULT_VAL]⟩)
    ∧ isFloatVal DEFAULT_VAL = false :=
  ⟨rfl, rfl⟩

/-- Claim C9: for every channel count ≥ 1, `start()` configures the comport
with line size `channels * (4 + 9 + 1) - 1 + 2` (57 for 4 channels),
terminator `\r\n` (2 characters), baud rate 19200, and read timeout
`(channels + 1) * 0.167` seconds. -/
theorem C9_start_configuration (ch : Nat) (hch : 1 ≤ ch) :
    SelTemperature.start (initState ch) =
      ⟨ch * (4 + 9 + 1) - 1 + 2, ['\r', '\n'], 19200,
        ((ch : ℚ) + 1) * (167 / 1000)⟩
    ∧ readLineSize 4 = 57 ∧ TERMINATOR.length = 2 :=
  ⟨rfl, rfl, rfl⟩

/-- Claim C9 witness: the configuration for 4 channels. -/
theorem C9_start_configuration_witness :
    SelTemperature.start (initState 4) =
      ⟨4 * (4 + 9 + 1) - 1 + 2, ['\r', '\n'], 19200,
        ((4 : ℚ) + 1) * (167 / 1000)⟩
    ∧ readLineSize 4 = 57 ∧ TERMINATOR.length = 2 :=
  C9_start_configuration 4 (by decide)
